import Mathlib

/-!
Verification of the three checksum scripts in this repository
(`gen_sha256.py`, `generate_manifest.py`, `generate_sha256.py`) against
their documented behaviour.

The development shallowly embeds each script: file systems, zip archives
and command lines become explicit values, the scripts become pure
functions from those values to an outcome record (exit code, streams,
files written), and `hashlib.sha256` is embedded as a full executable
implementation of SHA-256 over byte lists, validated below against the
standard test vectors.
-/

set_option maxRecDepth 1000000

namespace SHA256

/-- The word modulus of SHA-256, `2 ^ 32`. -/
def M32 : Nat := 4294967296

/-- Right rotation of a 32-bit word. -/
def rotr (n x : Nat) : Nat := ((x >>> n) ||| (x <<< (32 - n))) % M32

/-- Addition of 32-bit words, modulo `2 ^ 32`. -/
def add32 (a b : Nat) : Nat := (a + b) % M32

/-- Bitwise complement of a 32-bit word. -/
def bnot32 (x : Nat) : Nat := x ^^^ (M32 - 1)

/-- The big Sigma-0 function of the compression rounds. -/
def bigSigma0 (x : Nat) : Nat := (rotr 2 x ^^^ rotr 13 x) ^^^ rotr 22 x

/-- The big Sigma-1 function of the compression rounds. -/
def bigSigma1 (x : Nat) : Nat := (rotr 6 x ^^^ rotr 11 x) ^^^ rotr 25 x

/-- The small sigma-0 function of the message schedule. -/
def smallSigma0 (x : Nat) : Nat := (rotr 7 x ^^^ rotr 18 x) ^^^ (x >>> 3)

/-- The small sigma-1 function of the message schedule. -/
def smallSigma1 (x : Nat) : Nat := (rotr 17 x ^^^ rotr 19 x) ^^^ (x >>> 10)

/-- The choice function of the compression rounds. -/
def ch (x y z : Nat) : Nat := (x &&& y) ^^^ (bnot32 x &&& z)

/-- The majority function of the compression rounds. -/
def maj (x y z : Nat) : Nat := ((x &&& y) ^^^ (x &&& z)) ^^^ (y &&& z)

/-- The SHA-256 round constants. -/
def K : Array Nat := #[
  1116352408, 1899447441, 3049323471, 3921009573, 961987163,
  1508970993, 2453635748, 2870763221, 3624381080, 310598401,
  607225278, 1426881987, 1925078388, 2162078206, 2614888103,
  3248222580, 3835390401, 4022224774, 264347078, 604807628,
  770255983, 1249150122, 1555081692, 1996064986, 2554220882,
  2821834349, 2952996808, 3210313671, 3336571891, 3584528711,
  113926993, 338241895, 666307205, 773529912, 1294757372,
  1396182291, 1695183700, 1986661051, 2177026350, 2456956037,
  2730485921, 2820302411, 3259730800, 3345764771, 3516065817,
  3600352804, 4094571909, 275423344, 430227734, 506948616,
  659060556, 883997877, 958139571, 1322822218, 1537002063,
  1747873779, 1955562222, 2024104815, 2227730452, 2361852424,
  2428436474, 2756734187, 3204031479, 3329325298]

/-- The SHA-256 initial hash value. -/
def H0 : Array Nat := #[
  1779033703, 3144134277, 1013904242, 2773480762, 1359893119,
  2600822924, 528734635, 1541459225]

/-- Padding of the message: append `0x80`, zero bytes, and the 64-bit
big-endian bit length, reaching a multiple of 64 bytes. -/
def padBytes (msg : List Nat) : List Nat :=
  let L := msg.length
  let pad := (119 - L % 64) % 64
  let bl := 8 * L
  msg ++ 0x80 :: List.replicate pad 0 ++
    [(bl >>> 56) % 256, (bl >>> 48) % 256, (bl >>> 40) % 256, (bl >>> 32) % 256,
     (bl >>> 24) % 256, (bl >>> 16) % 256, (bl >>> 8) % 256, bl % 256]

/-- Grouping of bytes into big-endian 32-bit words. -/
def toWords : List Nat → List Nat
  | a :: b :: c :: d :: rest => (((a * 256 + b) * 256 + c) * 256 + d) :: toWords rest
  | _ => []

/-- Extension of the 16 block words to the 64-entry message schedule. -/
def msgSchedule (ws : Array Nat) : Array Nat :=
  (List.range 48).foldl (fun a i =>
    let t := i + 16
    a.push (add32 (add32 (smallSigma1 (a.getD (t - 2) 0)) (a.getD (t - 7) 0))
                  (add32 (smallSigma0 (a.getD (t - 15) 0)) (a.getD (t - 16) 0)))) ws

/-- The eight working registers of the compression function. -/
structure Regs where
  a : Nat
  b : Nat
  c : Nat
  d : Nat
  e : Nat
  f : Nat
  g : Nat
  h : Nat

/-- One round of the SHA-256 compression function. -/
def round (k w : Nat) (r : Regs) : Regs :=
  let t1 := add32 r.h (add32 (bigSigma1 r.e) (add32 (ch r.e r.f r.g) (add32 k w)))
  let t2 := add32 (bigSigma0 r.a) (maj r.a r.b r.c)
  ⟨add32 t1 t2, r.a, r.b, r.c, add32 r.d t1, r.e, r.f, r.g⟩

/-- Compression of one 16-word block into the running hash state. -/
def compressBlock (hs : Array Nat) (block : Array Nat) : Array Nat :=
  let ws := msgSchedule block
  let r0 : Regs := ⟨hs.getD 0 0, hs.getD 1 0, hs.getD 2 0, hs.getD 3 0,
                    hs.getD 4 0, hs.getD 5 0, hs.getD 6 0, hs.getD 7 0⟩
  let r := (List.range 64).foldl (fun r i => round (K.getD i 0) (ws.getD i 0) r) r0
  #[add32 (hs.getD 0 0) r.a, add32 (hs.getD 1 0) r.b, add32 (hs.getD 2 0) r.c,
    add32 (hs.getD 3 0) r.d, add32 (hs.getD 4 0) r.e, add32 (hs.getD 5 0) r.f,
    add32 (hs.getD 6 0) r.g, add32 (hs.getD 7 0) r.h]

/-- Fuel-driven worker for `chunksOf`; the fuel bounds the number of chunks
(the list length always suffices when `0 < n`). -/
def chunksOfFuel (n : Nat) : Nat → List α → List (List α)
  | 0, _ => []
  | _ + 1, [] => []
  | fuel + 1, x :: xs => ((x :: xs).take n) :: chunksOfFuel n fuel ((x :: xs).drop n)

/-- Splitting of a list into consecutive chunks of length `n` (the last chunk
may be shorter).  This models the Python read loop
`for chunk in iter(lambda: f.read(n), b""):` over a file's byte content. -/
def chunksOf (n : Nat) (l : List α) : List (List α) := chunksOfFuel n l.length l

/-- The SHA-256 digest of a byte list, as 32 bytes. -/
def sha256bytes (msg : List Nat) : List Nat :=
  let blocks := chunksOf 16 (toWords (padBytes msg))
  let hs := blocks.foldl (fun hs b => compressBlock hs b.toArray) H0
  hs.toList.foldr (fun w acc =>
    (w >>> 24) % 256 :: (w >>> 16) % 256 :: (w >>> 8) % 256 :: w % 256 :: acc) []

/-- One lowercase hexadecimal digit. -/
def hexDigit (n : Nat) : Char := Char.ofNat (if n < 10 then 48 + n else 87 + n)

/-- Lowercase hex rendering of a byte list. -/
def bytesToHex (bs : List Nat) : String :=
  String.mk (bs.foldr (fun b acc => hexDigit (b / 16) :: hexDigit (b % 16) :: acc) [])

/-- The lowercase hexadecimal SHA-256 digest of a byte list: the model of
`hashlib.sha256(data).hexdigest()`. -/
def sha256hex (msg : List Nat) : String := bytesToHex (sha256bytes msg)

end SHA256

namespace PyDict

/-- Assignment `d[k] = v` on a Python `dict` kept as an insertion-ordered
association list: an existing key is updated in place, a new key is appended. -/
def dictInsert (d : List (String × String)) (k v : String) : List (String × String) :=
  if d.any (fun p => p.1 == k) then d.map (fun p => if p.1 == k then (k, v) else p)
  else d ++ [(k, v)]

end PyDict

namespace PyJson

/-- Four lowercase hex digits, for `\u` escapes. -/
def hex4 (n : Nat) : List Char :=
  [SHA256.hexDigit (n / 4096 % 16), SHA256.hexDigit (n / 256 % 16),
   SHA256.hexDigit (n / 16 % 16), SHA256.hexDigit (n % 16)]

/-- Escaping of one character as in Python's `json` serializer; with
`ensureAscii` set, characters above `0x7e` are `\u`-escaped (using a
surrogate pair beyond the basic plane), as `json.dump` does by default. -/
def jsonEscapeChar (ensureAscii : Bool) (c : Char) : List Char :=
  if c == '"' then ['\\', '"']
  else if c == '\\' then ['\\', '\\']
  else if c == '\n' then ['\\', 'n']
  else if c == '\t' then ['\\', 't']
  else if c == '\r' then ['\\', 'r']
  else if c == '\x08' then ['\\', 'b']
  else if c == '\x0c' then ['\\', 'f']
  else if c.toNat < 32 then '\\' :: 'u' :: hex4 c.toNat
  else if ensureAscii && 126 < c.toNat then
    if c.toNat ≤ 65535 then '\\' :: 'u' :: hex4 c.toNat
    else
      let v := c.toNat - 65536
      ('\\' :: 'u' :: hex4 (55296 + v / 1024)) ++ '\\' :: 'u' :: hex4 (56320 + v % 1024)
  else [c]

/-- A JSON string literal with the chosen escaping. -/
def jsonQuote (ensureAscii : Bool) (s : String) : String :=
  "\"" ++ String.mk (s.data.foldr (fun c acc => jsonEscapeChar ensureAscii c ++ acc) []) ++ "\""

/-- Serialization of a flat string-to-string mapping as
`json.dumps(d, indent=2)` renders it: entries in the association list's
order, two-space indent, and `\x7b\x7d` for the empty mapping. -/
def dumpsIndent2 (ensureAscii : Bool) (d : List (String × String)) : String :=
  match d with
  | [] => "\x7b\x7d"
  | _ =>
    "\x7b\n" ++
      String.intercalate ",\n"
        (d.map (fun p => "  " ++ jsonQuote ensureAscii p.1 ++ ": " ++ jsonQuote ensureAscii p.2)) ++
      "\n\x7d"

end PyJson

namespace PyPath

/-- Joining of path components with the POSIX separator, the model of
nested `os.path.join`. -/
def joinPath (ds : List String) (n : String) : String :=
  ds.foldr (fun d acc => d ++ "/" ++ acc) n

/-- One step of the basename scan: a separator restarts the collected
component. -/
def basenameStep (acc : List Char) (c : Char) : List Char :=
  if c = '/' then [] else acc ++ [c]

/-- The model of `os.path.basename`: the part of the path after the last
separator. -/
def osBasename (p : String) : String := String.mk (p.data.foldl basenameStep [])

/-- Worker of `strBegins` on character lists. -/
def charsBegin : List Char → List Char → Bool
  | [], _ => true
  | _ :: _, [] => false
  | a :: as, b :: bs => a == b && charsBegin as bs

/-- Boolean test that `s` begins with the literal `pre`. -/
def strBegins (pre s : String) : Bool := charsBegin pre.data s.data

end PyPath

namespace GenSha256

/-!
Embedding of `gen_sha256.py` (DirectoryDigestMapper).

A regular file found by `os.walk(root_dir)` is a `FileRec`: its path
components relative to the root, and its byte content, `none` meaning the
file is unreadable so that `open` raises `IOError`.  The `walkFiles` list
passed to `genMain` is the flattened enumeration `os.walk` produces; for a
root that does not exist (or contains no files) `os.walk` yields nothing,
so that enumeration is `[]`.
-/

/-- A regular file in the walked subtree: relative path components and
content (`none` models an unreadable file). -/
structure FileRec where
  rel : List String
  content : Option (List Nat)
deriving DecidableEq

/-- The key used for a file: `os.path.relpath(file_path, root_dir)` with
separators normalized to `/`. -/
def relPath (f : FileRec) : String := String.intercalate "/" f.rel

/-- Embedding of `sha256_file`: hash the content read in 8192-byte chunks,
feeding each chunk to the running hash; `none` content means the `open`
call raises and no digest is produced. -/
def sha256_file (content : Option (List Nat)) : Option String :=
  content.map (fun c =>
    SHA256.sha256hex ((SHA256.chunksOf 8192 c).foldl (fun a b => a ++ b) []))

/-- The loop body of `generate_sha256_map`: fold the walked files into the
result dictionary; a raised `IOError` propagates (the whole computation
yields `none`). -/
def buildMap : List (String × String) → List FileRec → Option (List (String × String))
  | d, [] => some d
  | d, f :: fs =>
    match sha256_file f.content with
    | none => none
    | some hv => buildMap (PyDict.dictInsert d (relPath f) hv) fs

/-- Embedding of `generate_sha256_map(root_dir)` over the walk enumeration. -/
def generate_sha256_map (files : List FileRec) : Option (List (String × String)) :=
  buildMap [] files

/-- The observable outcome of one run of the script. -/
structure GenOutcome where
  exitCode : Nat
  stdout : List String
  stderr : List String
  saved : Option (String × String)
deriving DecidableEq

/-- The usage message of the script. -/
def usageMsg : String := "Usage: python gen_sha256.py <directory>"

/-- Embedding of the `__main__` block: check the argument count, hash the
walked files, print the JSON and save it to `sha256.json`.  An uncaught
`IOError` aborts the run: the interpreter prints a traceback to standard
error and exits with status 1, with nothing printed to standard output and
no file written. -/
def genMain (argv : List String) (walkFiles : List FileRec) : GenOutcome :=
  if argv.length < 2 then
    ⟨1, [usageMsg], [], none⟩
  else
    match generate_sha256_map walkFiles with
    | none => ⟨1, [], ["Traceback (most recent call last):"], none⟩
    | some m =>
      let j := PyJson.dumpsIndent2 false m
      ⟨0, [j, "\nSaved to sha256.json"], [], some ("sha256.json", j)⟩

/-- The mapping entry contributed by one readable file. -/
def mapEntry (f : FileRec) : String × String :=
  (relPath f, SHA256.sha256hex (f.content.getD []))

end GenSha256

namespace GenerateManifest

/-!
Embedding of `generate_manifest.py` (ArchiveManifestGenerator).

The zip input is either missing (the `os.path.exists` check fails), an
existing file that is not a valid zip (`zipfile.ZipFile` raises
`BadZipFile`), or a valid archive given by its entry list.  An entry
carries its name, its directory flag, and its decompressed content.
-/

/-- One archive entry: name, directory flag, decompressed byte content. -/
structure ZEntry where
  filename : String
  isDir : Bool
  content : List Nat
deriving DecidableEq

/-- The three relevant states of the input path. -/
inductive ZipInput
  | missing
  | invalid
  | valid (entries : List ZEntry)

/-- The observable outcome of one run of the script. -/
structure ManifestOutcome where
  exitCode : Nat
  stdout : List String
  stderr : List String
  written : Option (String × String)
deriving DecidableEq

/-- Index of the last occurrence of a character, the model of `str.rfind`. -/
def rfindIdx (c : Char) (l : List Char) : Option Nat :=
  (l.foldl (fun (st : Nat × Option Nat) ch =>
    (st.1 + 1, if ch = c then some st.1 else st.2)) (0, none)).2

/-- The root part of `os.path.splitext`: the path without its extension,
where the extension starts at the last dot of the last component unless
that component consists of leading dots up to there. -/
def splitextRoot (p : String) : String :=
  let cs := p.data
  match rfindIdx '.' cs with
  | none => p
  | some di =>
    let bs := match rfindIdx '/' cs with
      | none => 0
      | some si => si + 1
    if bs ≤ di then
      if ((cs.drop bs).take (di - bs)).any (fun ch => ch != '.') then
        String.mk (cs.take di)
      else p
    else p

/-- The manifest file path: the archive path with its extension replaced by
`.json`. -/
def manifestPath (zipPath : String) : String := splitextRoot zipPath ++ ".json"

/-- The model of `zf.open(filename)`: look the name up among the entries.
`zipfile` resolves a name through its `NameToInfo` dictionary, where a
later duplicate overwrites an earlier one, hence the reverse search. -/
def zipOpen (entries : List ZEntry) (name : String) : Option ZEntry :=
  entries.reverse.find? (fun e => e.filename == name)

/-- The sorted name list the script iterates over:
`sorted(info.filename for info in zf.infolist() if not info.is_dir())`. -/
def sortedNames (entries : List ZEntry) : List String :=
  List.insertionSort (fun a b => a ≤ b)
    ((entries.filter (fun e => !e.isDir)).map (fun e => e.filename))

/-- The manifest dictionary built by the hashing loop: for each sorted name,
open the entry, hash its decompressed content, and record it under the
backslash-normalized name.  The `none` branch of the lookup cannot occur
(every iterated name comes from the entry list) and returns the dictionary
unchanged. -/
def hashEntries (entries : List ZEntry) : List (String × String) :=
  (sortedNames entries).foldl (fun d name =>
    match zipOpen entries name with
    | some e => PyDict.dictInsert d (name.replace "\\" "/") (SHA256.sha256hex e.content)
    | none => d) []

/-- Stable sort of the dictionary items by key, the model of the
`sort_keys=True` pass of `json.dump`. -/
def sortByKey (d : List (String × String)) : List (String × String) :=
  List.insertionSort (fun p q => p.1 ≤ q.1) d

/-- The key-value pairs in the order they are emitted into the manifest
file. -/
def emittedPairs (entries : List ZEntry) : List (String × String) :=
  sortByKey (hashEntries entries)

/-- Embedding of `generate_manifest(zip_path)`. -/
def generate_manifest (zipPath : String) (z : ZipInput) : ManifestOutcome :=
  match z with
  | .missing =>
    ⟨1, [], ["错误: 在 \x27" ++ zipPath ++ "\x27 未找到 Zip 文件"], none⟩
  | .invalid =>
    ⟨1, ["正在为 \x27" ++ PyPath.osBasename zipPath ++ "\x27 生成清单文件..."],
     ["错误: \x27" ++ zipPath ++ "\x27 不是一个有效的 zip 文件。"], none⟩
  | .valid entries =>
    ⟨0,
     ("正在为 \x27" ++ PyPath.osBasename zipPath ++ "\x27 生成清单文件...") ::
       (sortedNames entries).map (fun n => "  - 已哈希: " ++ n.replace "\\" "/") ++
       ["\n成功! 清单文件已生成于: \x27" ++ manifestPath zipPath ++ "\x27"],
     [],
     some (manifestPath zipPath, PyJson.dumpsIndent2 true (emittedPairs entries))⟩

instance : IsTotal (String × String) (fun p q => p.1 ≤ q.1) :=
  ⟨fun a b => le_total a.1 b.1⟩

instance : IsTrans (String × String) (fun p q => p.1 ≤ q.1) :=
  ⟨fun _ _ _ hab hbc => le_trans hab hbc⟩

end GenerateManifest

namespace SidecarGen

/-!
Embedding of `generate_sha256.py` (SidecarChecksumWriter).

The target directory's regular files are `SFile` values: the subdirectory
chain below the target, the file name, the content (`none` models a file
whose `open` for reading raises `IOError`), whether the sidecar file can
be written (`false` models an `IOError` on `open` for writing), and the
text of the OS error used in messages.  The worker pool dispatches
independent per-file tasks and drains completions in nondeterministic
order; the model serializes them in submission order, which permutes only
the interleaving of per-file messages and affects no counted quantity.
-/

/-- One regular file under the target directory. -/
structure SFile where
  dir : List String
  name : String
  content : Option (List Nat)
  sidecarWritable : Bool
  errText : String
deriving DecidableEq

/-- The path `os.path.join(root, filename)` of a file, where `root` is the
target directory followed by the subdirectory chain. -/
def filePath (targetDir : String) (f : SFile) : String :=
  PyPath.joinPath (targetDir :: f.dir) f.name

/-- The read block size of the script. -/
def CHUNK_SIZE : Nat := 8192

/-- Embedding of `calculate_sha256`: hash the content read in
`CHUNK_SIZE`-byte chunks; on `IOError` the function reports the error and
returns `None`. -/
def calculate_sha256 (content : Option (List Nat)) : Option String :=
  content.map (fun c =>
    SHA256.sha256hex ((SHA256.chunksOf CHUNK_SIZE c).foldl (fun a b => a ++ b) []))

/-- What one `process_file` task observably does: lines printed to standard
output and standard error, the sidecar file written, and the returned
result string collected by the main loop. -/
structure ProcOut where
  stdoutMsgs : List String
  stderrMsgs : List String
  sidecar : Option (String × String)
  ret : Option String
deriving DecidableEq

/-- Embedding of `process_file(filepath)`: print the progress line, hash,
and either write the sidecar and return a success string, report a read
error (inside `calculate_sha256`) and return `None`, or return a
write-error string. -/
def process_file (fpath : String) (f : SFile) : ProcOut :=
  let processing := "正在处理: " ++ PyPath.osBasename fpath ++ "..."
  match calculate_sha256 f.content with
  | none =>
    ⟨[processing], ["错误: 无法读取文件 \x27" ++ fpath ++ "\x27: " ++ f.errText], none, none⟩
  | some digest =>
    if f.sidecarWritable then
      ⟨[processing], [],
       some (fpath ++ ".sha256", digest ++ "  " ++ PyPath.osBasename fpath ++ "\n"),
       some ("成功: " ++ PyPath.osBasename (fpath ++ ".sha256"))⟩
    else
      ⟨[processing], [], none,
       some ("错误: 无法写入SHA256文件 \x27" ++ (fpath ++ ".sha256") ++ "\x27: " ++ f.errText)⟩

/-- The candidate list the script builds up front, before any hashing: in
recursive mode every walked file, otherwise only the files directly in the
target directory (`os.path.isfile` holds exactly for the enumerated
regular files with an empty subdirectory chain); files already named with
the `.sha256` suffix are excluded in both modes. -/
def files_to_process (files : List SFile) (recursive : Bool) : List SFile :=
  if recursive then
    files.filter (fun f => !(f.name.endsWith ".sha256"))
  else
    files.filter (fun f => f.dir.isEmpty && !(f.name.endsWith ".sha256"))

/-- The observable outcome of one run: exit code, streams, the paths
submitted to the pool, and the sidecar files written. -/
structure SOutcome where
  exitCode : Nat
  stdout : List String
  stderr : List String
  submitted : List String
  sidecars : List (String × String)
deriving DecidableEq

/-- The standard-output lines traceable to one task: its progress line and
the result string printed by the drain loop when not `None`. -/
def procStdout (po : ProcOut) : List String := po.stdoutMsgs ++ po.ret.toList

/-- Embedding of `main()` past argument parsing: validate the directory,
build the candidate list, then dispatch `process_file` over it and print
the completion banner.  `isDir` is the result of `os.path.isdir` on the
target; `workers` is the resolved `-w` value. -/
def sidecar_main (targetDir : String) (isDir : Bool) (files : List SFile)
    (recursive : Bool) (workers : Nat) : SOutcome :=
  if !isDir then
    ⟨1, [], ["错误: 提供的路径 \x27" ++ targetDir ++ "\x27 不是一个有效的文件夹。"], [], []⟩
  else
    let scanMsg := if recursive then "正在递归扫描文件夹: " ++ targetDir
                   else "正在扫描文件夹: " ++ targetDir
    let fs := files_to_process files recursive
    if fs.isEmpty then
      ⟨0, [scanMsg, "未找到需要处理的文件。"], [], [], []⟩
    else
      let outs := fs.map (fun f => process_file (filePath targetDir f) f)
      ⟨0,
       scanMsg ::
         ("找到 " ++ toString fs.length ++ " 个文件。将使用 " ++ toString workers
            ++ " 个线程进行处理...") ::
         ((outs.map procStdout).flatten ++ ["\n所有文件处理完毕！"]),
       (outs.map (fun po => po.stderrMsgs)).flatten,
       fs.map (fun f => filePath targetDir f),
       outs.filterMap (fun po => po.sidecar)⟩

/-- A file for which the task succeeds: readable content and writable
sidecar. -/
def fileOk (f : SFile) : Bool := f.content.isSome && f.sidecarWritable

/-- Recognizer of the script's error reports: every error message (and only
the error messages) begins with the marker `错误`. -/
def isErrLine (s : String) : Bool := PyPath.strBegins "错误" s

/-- The user-visible error reports of a run: everything on standard error
plus the error lines printed to standard output by the drain loop. -/
def errorReports (o : SOutcome) : List String :=
  o.stderr ++ o.stdout.filter (fun s => isErrLine s)

end SidecarGen

namespace SHA256

/-- Joining the chunks produced with positive chunk size recovers the list. -/
theorem chunksOfFuel_join {α : Type} (n : Nat) (hn : 0 < n) :
    ∀ (fuel : Nat) (l : List α), l.length ≤ fuel → (chunksOfFuel n fuel l).flatten = l := by
  intro fuel
  induction fuel with
  | zero =>
    intro l hl
    have : l = [] := List.length_eq_zero.mp (Nat.le_zero.mp hl)
    simp [this, chunksOfFuel]
  | succ m ih =>
    intro l hl
    match l with
    | [] => simp [chunksOfFuel]
    | x :: xs =>
      simp only [chunksOfFuel, List.flatten]
      rw [ih ((x :: xs).drop n) ?_]
      · exact List.take_append_drop n (x :: xs)
      · rw [List.length_drop]
        simp only [List.length_cons] at hl ⊢
        omega

/-- Joining the chunks of positive size recovers the original list. -/
theorem chunksOf_join {α : Type} (n : Nat) (hn : 0 < n) (l : List α) :
    (chunksOf n l).flatten = l :=
  chunksOfFuel_join n hn l.length l le_rfl

/-- Left fold of append over a list of lists is the join, shifted by the
accumulator. -/
theorem foldl_append_eq_join {α : Type} (L : List (List α)) :
    ∀ acc : List α, L.foldl (fun a b => a ++ b) acc = acc ++ L.flatten := by
  induction L with
  | nil => intro acc; simp
  | cons x xs ih => intro acc; simp [ih, List.append_assoc]

/-- Feeding a file to the hash 8192 bytes at a time accumulates exactly the
file's full byte content: the incremental `sha.update(chunk)` stream equals
the whole file. -/
theorem chunked_stream_eq (c : List Nat) :
    (chunksOf 8192 c).foldl (fun a b => a ++ b) [] = c := by
  rw [foldl_append_eq_join, chunksOf_join 8192 (by omega) c]
  rfl

/-- Validation of the embedded SHA-256 against the reference vector for the
empty message. -/
theorem sha256hex_empty :
    sha256hex [] = "e3b0c44298fc1c149afbf4c8996fb92427ae41e4649b934ca495991b7852b855" := by
  decide

/-- Validation of the embedded SHA-256 against the reference vector for
`"hello"` (the spec's directory-mapper scenario). -/
theorem sha256hex_hello :
    sha256hex [104, 101, 108, 108, 111]
      = "2cf24dba5fb0a30e26e83b2ac5b9e29e1b161e5c1fa7425e73043362938b9824" := by
  decide

/-- Validation of the embedded SHA-256 against the reference vector for
`"x"` (the spec's archive-manifest scenario). -/
theorem sha256hex_x :
    sha256hex [120]
      = "2d711642b726b04401627ca9fbac32f5c8530fb1903cc4db02258717921a4881" := by
  decide

end SHA256

namespace PyDict

/-- Inserting a key absent from the dictionary appends the new pair. -/
theorem dictInsert_fresh (d : List (String × String)) (k v : String)
    (h : ∀ p ∈ d, p.1 ≠ k) : dictInsert d k v = d ++ [(k, v)] := by
  have hfalse : d.any (fun p => p.1 == k) = false := by
    simp only [List.any_eq_false, beq_iff_eq]
    exact h
  simp [dictInsert, hfalse]

end PyDict

namespace PyPath

/-- Appending two strings concatenates their character data. -/
theorem strData_append (a b : String) : (a ++ b).data = a.data ++ b.data := rfl

/-- A string rebuilt from its character data is itself. -/
theorem strMk_data (s : String) : String.mk s.data = s := rfl

/-- Scanning separator-free characters appends them to the accumulator. -/
theorem foldl_basenameStep_no_slash (l : List Char) (h : '/' ∉ l) :
    ∀ acc, l.foldl basenameStep acc = acc ++ l := by
  induction l with
  | nil => intro acc; simp
  | cons c cs ih =>
    intro acc
    have hc : c ≠ '/' := fun hcc => h (hcc ▸ List.mem_cons_self c cs)
    have hcs : '/' ∉ cs := fun hm => h (List.mem_cons_of_mem c hm)
    simp only [List.foldl_cons, basenameStep, if_neg hc]
    rw [ih hcs]
    simp

/-- The basename of `a ++ "/" ++ b` is the basename of `b`. -/
theorem osBasename_append_slash (a b : String) :
    osBasename (a ++ "/" ++ b) = osBasename b := by
  unfold osBasename
  have hd : (a ++ "/" ++ b).data = (a.data ++ ['/']) ++ b.data := by
    rw [strData_append, strData_append]
  rw [hd, List.foldl_append, List.foldl_append, List.foldl_cons]
  simp [basenameStep]

/-- The basename of a joined path whose final component has no separator is
that final component. -/
theorem osBasename_joinPath (ds : List String) (n : String) (h : '/' ∉ n.data) :
    osBasename (joinPath ds n) = n := by
  induction ds with
  | nil =>
    unfold joinPath osBasename
    simp only [List.foldr_nil]
    rw [foldl_basenameStep_no_slash n.data h [], List.nil_append, strMk_data]
  | cons d ds ih =>
    show osBasename (d ++ "/" ++ joinPath ds n) = n
    rw [osBasename_append_slash, ih]

end PyPath

namespace GenSha256

/-- On readable content, `sha256_file` produces the digest of the full
byte content: chunked reading changes nothing. -/
theorem sha256_file_some (c : List Nat) :
    sha256_file (some c) = some (SHA256.sha256hex c) := by
  simp [sha256_file, SHA256.chunked_stream_eq]

/-- With readable files and pairwise distinct keys, the dictionary fold
appends one entry per file, in walk order. -/
theorem buildMap_eq : ∀ (files : List FileRec) (d : List (String × String)),
    (∀ f ∈ files, f.content ≠ none) →
    (∀ f ∈ files, ∀ p ∈ d, p.1 ≠ relPath f) →
    files.Pairwise (fun a b => relPath a ≠ relPath b) →
    buildMap d files = some (d ++ files.map mapEntry)
  | [], d, _, _, _ => by simp [buildMap]
  | f :: fs, d, hread, hfresh, hdist => by
    obtain ⟨c, hc⟩ : ∃ c, f.content = some c := by
      cases hcf : f.content with
      | none => exact absurd hcf (hread f (List.mem_cons_self f fs))
      | some c => exact ⟨c, rfl⟩
    have hpair := List.pairwise_cons.mp hdist
    simp only [buildMap, hc, sha256_file_some]
    rw [PyDict.dictInsert_fresh d (relPath f) _
      (fun p hp => hfresh f (List.mem_cons_self f fs) p hp)]
    rw [buildMap_eq fs (d ++ [(relPath f, SHA256.sha256hex c)])
      (fun g hg => hread g (List.mem_cons_of_mem f hg)) ?_ hpair.2]
    · simp [mapEntry, hc]
    · intro g hg p hp
      rcases List.mem_append.mp hp with hpd | hpf
      · exact hfresh g (List.mem_cons_of_mem f hg) p hpd
      · have hpf' : p = (relPath f, SHA256.sha256hex c) := by simpa using hpf
        rw [hpf']
        exact hpair.1 g hg

/-- With readable files and pairwise distinct keys, the produced mapping is
exactly one entry per walked file, in walk order. -/
theorem generate_sha256_map_eq (files : List FileRec)
    (hread : ∀ f ∈ files, f.content ≠ none)
    (hdist : files.Pairwise (fun a b => relPath a ≠ relPath b)) :
    generate_sha256_map files = some (files.map mapEntry) :=
  buildMap_eq files [] hread (fun _ _ _ hp => absurd hp (List.not_mem_nil _)) hdist

/-- An unreadable file anywhere in the walk makes the whole computation
raise. -/
theorem buildMap_none : ∀ (files : List FileRec) (d : List (String × String)),
    (∃ f ∈ files, f.content = none) → buildMap d files = none
  | [], _, h => by simp at h
  | f :: fs, d, h => by
    cases hcf : f.content with
    | none => simp [buildMap, hcf, sha256_file]
    | some c =>
      obtain ⟨g, hg, hgc⟩ := h
      rcases List.mem_cons.mp hg with rfl | hg'
      · exact absurd hcf (by rw [hgc]; intro hEq; cases hEq)
      · simp only [buildMap, hcf, sha256_file_some]
        exact buildMap_none fs _ ⟨g, hg', hgc⟩

/-- In a list of files with pairwise distinct keys, filtering for a member's
key finds exactly that member. -/
theorem filter_key_unique : ∀ (files : List FileRec) (f : FileRec), f ∈ files →
    files.Pairwise (fun a b => relPath a ≠ relPath b) →
    files.filter (fun g => relPath g == relPath f) = [f]
  | [], f, hf, _ => absurd hf (List.not_mem_nil f)
  | g :: gs, f, hf, hdist => by
    have hpair := List.pairwise_cons.mp hdist
    rcases List.mem_cons.mp hf with rfl | hf'
    · rw [List.filter_cons_of_pos (by simp)]
      rw [List.filter_eq_nil_iff.mpr ?_]
      · intro a ha
        simp only [beq_iff_eq]
        exact Ne.symm (hpair.1 a ha)
    · have hne : relPath g ≠ relPath f := hpair.1 f hf'
      rw [List.filter_cons_of_neg (by simp [hne])]
      exact filter_key_unique gs f hf' hpair.2

/-- Claim C1: for every root and every regular file in its subtree, the
produced mapping has exactly one entry for that file, keyed by the file's
root-relative path with `/` separators, whose value is the lowercase hex
SHA-256 digest of the file's full byte content as accumulated from
8 KiB reads. -/
theorem c1_one_entry_full_digest (files : List FileRec)
    (hread : ∀ f ∈ files, f.content ≠ none)
    (hdist : files.Pairwise (fun a b => relPath a ≠ relPath b))
    (f : FileRec) (hf : f ∈ files) (c : List Nat) (hc : f.content = some c) :
    ∃ m, generate_sha256_map files = some m ∧
      m.filter (fun p => p.1 == relPath f) = [(relPath f, SHA256.sha256hex c)] := by
  refine ⟨files.map mapEntry, generate_sha256_map_eq files hread hdist, ?_⟩
  rw [List.filter_map]
  have hcomp : ((fun p : String × String => p.1 == relPath f) ∘ mapEntry)
      = fun g => relPath g == relPath f := rfl
  rw [hcomp, filter_key_unique files f hf hdist]
  simp [mapEntry, hc]

/-- Witness for C1 on a two-file tree containing `a.txt` = `"hello"`,
whose digest is the spec's reference vector. -/
theorem c1_one_entry_full_digest_witness :
    (∀ f ∈ ([⟨["a.txt"], some [104, 101, 108, 108, 111]⟩,
             ⟨["sub", "b.txt"], some [120]⟩] : List FileRec), f.content ≠ none) ∧
    ([⟨["a.txt"], some [104, 101, 108, 108, 111]⟩,
      ⟨["sub", "b.txt"], some [120]⟩] : List FileRec).Pairwise
        (fun a b => relPath a ≠ relPath b) ∧
    (⟨["a.txt"], some [104, 101, 108, 108, 111]⟩ : FileRec) ∈
      ([⟨["a.txt"], some [104, 101, 108, 108, 111]⟩,
        ⟨["sub", "b.txt"], some [120]⟩] : List FileRec) ∧
    ∃ m, generate_sha256_map
        [⟨["a.txt"], some [104, 101, 108, 108, 111]⟩, ⟨["sub", "b.txt"], some [120]⟩]
          = some m ∧
      m.filter (fun p => p.1 == relPath ⟨["a.txt"], some [104, 101, 108, 108, 111]⟩)
        = [(relPath ⟨["a.txt"], some [104, 101, 108, 108, 111]⟩,
            SHA256.sha256hex [104, 101, 108, 108, 111])] :=
  ⟨by decide, by decide, by decide,
    c1_one_entry_full_digest _ (by decide) (by decide) _ (by decide) _ rfl⟩

/-- Claim C2, counterexample: the serialized output of DirectoryDigestMapper
does depend on the order in which `os.walk` yields the files — the same two
files walked in the two orders produce different `sha256.json` bytes,
because `json.dumps` is called without key sorting on an insertion-ordered
dictionary. -/
theorem c2_serialization_depends_on_walk_order :
    (genMain ["gen_sha256.py", "assets"]
        [⟨["a.txt"], some [104, 101, 108, 108, 111]⟩, ⟨["b.txt"], some [120]⟩]).saved ≠
    (genMain ["gen_sha256.py", "assets"]
        [⟨["b.txt"], some [120]⟩, ⟨["a.txt"], some [104, 101, 108, 108, 111]⟩]).saved := by
  decide

/-- Claim C2 as amended: the digest mapping produced by DirectoryDigestMapper
is order-independent as a mapping — walking the same readable, distinct
files in any two orders yields mappings that are permutations of one
another (same keys, same digests) — though its serialized JSON lists the
entries in walk order. -/
theorem c2_mapping_order_independent (l₁ l₂ : List FileRec)
    (hperm : l₁.Perm l₂)
    (hread : ∀ f ∈ l₁, f.content ≠ none)
    (hdist : l₁.Pairwise (fun a b => relPath a ≠ relPath b)) :
    ∃ m₁ m₂, generate_sha256_map l₁ = some m₁ ∧ generate_sha256_map l₂ = some m₂ ∧
      m₁.Perm m₂ := by
  have hread₂ : ∀ f ∈ l₂, f.content ≠ none := fun f hf => hread f (hperm.mem_iff.mpr hf)
  have hdist₂ : l₂.Pairwise (fun a b => relPath a ≠ relPath b) :=
    (hperm.pairwise_iff (fun h => Ne.symm h)).mp hdist
  exact ⟨l₁.map mapEntry, l₂.map mapEntry, generate_sha256_map_eq l₁ hread hdist,
    generate_sha256_map_eq l₂ hread₂ hdist₂, hperm.map mapEntry⟩

/-- Witness for the amended C2 on the two-file tree in both orders. -/
theorem c2_mapping_order_independent_witness :
    ([⟨["a.txt"], some [104, 101, 108, 108, 111]⟩,
      ⟨["b.txt"], some [120]⟩] : List FileRec).Perm
      [⟨["b.txt"], some [120]⟩, ⟨["a.txt"], some [104, 101, 108, 108, 111]⟩] ∧
    (∀ f ∈ ([⟨["a.txt"], some [104, 101, 108, 108, 111]⟩,
             ⟨["b.txt"], some [120]⟩] : List FileRec), f.content ≠ none) ∧
    ∃ m₁ m₂,
      generate_sha256_map
        [⟨["a.txt"], some [104, 101, 108, 108, 111]⟩, ⟨["b.txt"], some [120]⟩] = some m₁ ∧
      generate_sha256_map
        [⟨["b.txt"], some [120]⟩, ⟨["a.txt"], some [104, 101, 108, 108, 111]⟩] = some m₂ ∧
      m₁.Perm m₂ :=
  ⟨List.Perm.swap _ _ _, by decide,
    c2_mapping_order_independent _ _ (List.Perm.swap _ _ _) (by decide) (by decide)⟩

/-- Claim C5: an unreadable file under the root aborts the whole run —
the `IOError` propagates uncaught, so the process exits with status 1,
prints no JSON to standard output, and writes no `sha256.json` (no partial
output, no per-file recovery). -/
theorem c5_unreadable_aborts_run (argv : List String) (files : List FileRec)
    (harg : 2 ≤ argv.length) (hbad : ∃ f ∈ files, f.content = none) :
    genMain argv files = ⟨1, [], ["Traceback (most recent call last):"], none⟩ := by
  unfold genMain
  rw [if_neg (by omega),
    show generate_sha256_map files = none from buildMap_none files [] hbad]

/-- Witness for C5: one unreadable file among two. -/
theorem c5_unreadable_aborts_run_witness :
    2 ≤ (["gen_sha256.py", "assets"] : List String).length ∧
    (∃ f ∈ ([⟨["a.txt"], some [104, 101, 108, 108, 111]⟩,
             ⟨["bad.bin"], none⟩] : List FileRec), f.content = none) ∧
    genMain ["gen_sha256.py", "assets"]
        [⟨["a.txt"], some [104, 101, 108, 108, 111]⟩, ⟨["bad.bin"], none⟩]
      = ⟨1, [], ["Traceback (most recent call last):"], none⟩ :=
  ⟨by decide, by decide, c5_unreadable_aborts_run _ _ (by decide) (by decide)⟩

/-- Claim C9, counterexample: invoked with no directory argument the script
exits with status 1 and prints the usage message, but on standard output —
standard error stays empty, contradicting the claim that the usage message
is reported to standard error. -/
theorem c9_usage_goes_to_stdout :
    (genMain ["gen_sha256.py"] []).exitCode = 1 ∧
    (genMain ["gen_sha256.py"] []).stdout = [usageMsg] ∧
    (genMain ["gen_sha256.py"] []).stderr = [] := by
  decide

/-- Claim C9 as amended: with no directory argument the script reports the
usage message to standard output and exits with status 1. -/
theorem c9_usage_stdout_exit1 (argv : List String) (files : List FileRec)
    (h : argv.length < 2) :
    genMain argv files = ⟨1, [usageMsg], [], none⟩ := by
  unfold genMain
  rw [if_pos h]

/-- Witness for the amended C9. -/
theorem c9_usage_stdout_exit1_witness :
    (["gen_sha256.py"] : List String).length < 2 ∧
    genMain ["gen_sha256.py"] [] = ⟨1, [usageMsg], [], none⟩ :=
  ⟨by decide, c9_usage_stdout_exit1 _ _ (by decide)⟩

/-- Claim C10: the root directory's existence is never checked — whenever
the walk yields no files (a missing root, or a root with no files), the run
succeeds with exit status 0, prints the empty JSON object, and writes
`sha256.json` containing the empty JSON object; no error is reported. -/
theorem c10_missing_root_success (argv : List String) (files : List FileRec)
    (harg : 2 ≤ argv.length) (hempty : files = []) :
    genMain argv files
      = ⟨0, ["\x7b\x7d", "\nSaved to sha256.json"], [], some ("sha256.json", "\x7b\x7d")⟩ := by
  subst hempty
  unfold genMain
  rw [if_neg (by omega)]
  rfl

/-- Witness for C10 on the empty walk. -/
theorem c10_missing_root_success_witness :
    2 ≤ (["gen_sha256.py", "no_such_dir"] : List String).length ∧
    genMain ["gen_sha256.py", "no_such_dir"] []
      = ⟨0, ["\x7b\x7d", "\nSaved to sha256.json"], [], some ("sha256.json", "\x7b\x7d")⟩ :=
  ⟨by decide, c10_missing_root_success _ _ (by decide) rfl⟩

end GenSha256

namespace GenerateManifest

/-- The first match of a predicate is the head of the filtered list. -/
theorem find?_eq_head?_filter {α : Type} (p : α → Bool) (l : List α) :
    l.find? p = (l.filter p).head? := by
  induction l with
  | nil => rfl
  | cons a l ih =>
    by_cases h : p a
    · rw [List.find?_cons_of_pos _ h, List.filter_cons_of_pos h]
      rfl
    · rw [List.find?_cons_of_neg _ h, List.filter_cons_of_neg h, ih]

/-- Permutations of lists with at most one element are equalities. -/
theorem perm_eq_of_length_le_one {α : Type} {l₁ l₂ : List α}
    (h : l₁.Perm l₂) (hl : l₁.length ≤ 1) : l₁ = l₂ := by
  match l₁, hl with
  | [], _ => exact (h.symm.eq_nil).symm
  | [a], _ => exact (List.perm_singleton.mp h.symm).symm

/-- Among entries with pairwise distinct names, at most one entry matches a
given name. -/
theorem length_filter_le_one (entries : List ZEntry)
    (hd : (entries.map (fun e => e.filename)).Nodup) (n : String) :
    (entries.filter (fun e => e.filename == n)).length ≤ 1 := by
  induction entries with
  | nil => simp
  | cons e es ih =>
    have hd' := List.nodup_cons.mp hd
    by_cases h : e.filename = n
    · rw [List.filter_cons_of_pos (by simp [h])]
      have hnil : es.filter (fun x => x.filename == n) = [] := by
        apply List.filter_eq_nil_iff.mpr
        intro x hx
        simp only [beq_iff_eq]
        intro hxn
        have hmem : x.filename ∈ es.map (fun e => e.filename) :=
          List.mem_map_of_mem _ hx
        rw [hxn, ← h] at hmem
        exact hd'.1 hmem
      rw [hnil]
      simp
    · rw [List.filter_cons_of_neg (by simp [h])]
      exact ih hd'.2

/-- With distinct entry names, the lookup `zf.open(name)` gives the same
result in any archive holding a permutation of the entries. -/
theorem zipOpen_perm (l₁ l₂ : List ZEntry) (h : l₁.Perm l₂)
    (hd : (l₁.map (fun e => e.filename)).Nodup) (n : String) :
    zipOpen l₁ n = zipOpen l₂ n := by
  unfold zipOpen
  rw [find?_eq_head?_filter, find?_eq_head?_filter]
  have hrev : (l₁.reverse).Perm l₂.reverse :=
    (l₁.reverse_perm).trans (h.trans l₂.reverse_perm.symm)
  have hp : ((l₁.reverse).filter (fun e => e.filename == n)).Perm
      ((l₂.reverse).filter (fun e => e.filename == n)) := hrev.filter _
  have hl : ((l₁.reverse).filter (fun e => e.filename == n)).length ≤ 1 := by
    have hpe : ((l₁.reverse).filter (fun e => e.filename == n)).Perm
        (l₁.filter (fun e => e.filename == n)) := (l₁.reverse_perm).filter _
    rw [hpe.length_eq]
    exact length_filter_le_one l₁ hd n
  rw [perm_eq_of_length_le_one hp hl]

/-- The sorted name list is the same for any two archives whose entry lists
are permutations of one another. -/
theorem sortedNames_perm_eq (l₁ l₂ : List ZEntry) (h : l₁.Perm l₂) :
    sortedNames l₁ = sortedNames l₂ := by
  unfold sortedNames
  exact List.eq_of_perm_of_sorted
    ((List.perm_insertionSort _ _).trans
      (((h.filter _).map _).trans (List.perm_insertionSort _ _).symm))
    (List.sorted_insertionSort _ _) (List.sorted_insertionSort _ _)

/-- With distinct entry names, the manifest dictionary is identical for any
two archives whose entry lists are permutations of one another. -/
theorem hashEntries_perm_eq (l₁ l₂ : List ZEntry) (h : l₁.Perm l₂)
    (hd : (l₁.map (fun e => e.filename)).Nodup) :
    hashEntries l₁ = hashEntries l₂ := by
  unfold hashEntries
  rw [sortedNames_perm_eq l₁ l₂ h]
  have hfn : (fun (d : List (String × String)) name =>
      match zipOpen l₁ name with
      | some e => PyDict.dictInsert d (name.replace "\\" "/") (SHA256.sha256hex e.content)
      | none => d) =
      (fun (d : List (String × String)) name =>
      match zipOpen l₂ name with
      | some e => PyDict.dictInsert d (name.replace "\\" "/") (SHA256.sha256hex e.content)
      | none => d) := by
    funext d name
    rw [zipOpen_perm l₁ l₂ h hd name]
  rw [hfn]

/-- Claim C3: for a valid archive the manifest keys are emitted in
lexicographically sorted order, and two archives containing the same
entries (same names, same decompressed contents) in different internal
orders produce byte-identical manifest files. -/
theorem c3_sorted_keys_order_independent (p : String) (e₁ e₂ : List ZEntry)
    (hperm : e₁.Perm e₂) (hd : (e₁.map (fun e => e.filename)).Nodup) :
    List.Sorted (fun a b : String => a ≤ b) ((emittedPairs e₁).map (fun q => q.1)) ∧
    (generate_manifest p (.valid e₁)).written
      = (generate_manifest p (.valid e₂)).written := by
  constructor
  · have hs : List.Sorted (fun q r : String × String => q.1 ≤ r.1) (emittedPairs e₁) :=
      List.sorted_insertionSort _ _
    exact List.Pairwise.map _ (fun a b hab => hab) hs
  · have heq : hashEntries e₁ = hashEntries e₂ := hashEntries_perm_eq e₁ e₂ hperm hd
    simp only [generate_manifest, emittedPairs, heq]

/-- Witness for C3: the spec's scenario archive (entry `docs/readme.txt`
with content `"x"`, plus `a.txt` with content `"hello"`) in both internal
orders. -/
theorem c3_sorted_keys_order_independent_witness :
    ([⟨"docs/readme.txt", false, [120]⟩,
      ⟨"a.txt", false, [104, 101, 108, 108, 111]⟩] : List ZEntry).Perm
      [⟨"a.txt", false, [104, 101, 108, 108, 111]⟩, ⟨"docs/readme.txt", false, [120]⟩] ∧
    (([⟨"docs/readme.txt", false, [120]⟩,
       ⟨"a.txt", false, [104, 101, 108, 108, 111]⟩] : List ZEntry).map
        (fun e => e.filename)).Nodup ∧
    (List.Sorted (fun a b : String => a ≤ b)
      ((emittedPairs [⟨"docs/readme.txt", false, [120]⟩,
        ⟨"a.txt", false, [104, 101, 108, 108, 111]⟩]).map (fun q => q.1)) ∧
     (generate_manifest "archive.zip"
        (.valid [⟨"docs/readme.txt", false, [120]⟩,
                 ⟨"a.txt", false, [104, 101, 108, 108, 111]⟩])).written
       = (generate_manifest "archive.zip"
          (.valid [⟨"a.txt", false, [104, 101, 108, 108, 111]⟩,
                   ⟨"docs/readme.txt", false, [120]⟩])).written) :=
  ⟨List.Perm.swap _ _ _, by decide,
    c3_sorted_keys_order_independent "archive.zip" _ _ (List.Perm.swap _ _ _) (by decide)⟩

/-- Claim C4: a missing input path and an existing-but-invalid zip both
exit with status 1, with distinct error messages, and in neither case is a
manifest file written (the manifest is only written after all entries are
hashed). -/
theorem c4_missing_badzip_distinct_no_output (p : String) :
    (generate_manifest p .missing).exitCode = 1 ∧
    (generate_manifest p .missing).written = none ∧
    (generate_manifest p .invalid).exitCode = 1 ∧
    (generate_manifest p .invalid).written = none ∧
    (generate_manifest p .missing).stderr ≠ (generate_manifest p .invalid).stderr := by
  refine ⟨rfl, rfl, rfl, rfl, ?_⟩
  simp only [generate_manifest, ne_eq, List.cons.injEq, and_true]
  intro h
  have hlen := congrArg String.length h
  simp only [String.length_append] at hlen
  have l1 : ("错误: 在 \x27" : String).length = 7 := by decide
  have l2 : ("\x27 未找到 Zip 文件" : String).length = 12 := by decide
  have l3 : ("错误: \x27" : String).length = 5 := by decide
  have l4 : ("\x27 不是一个有效的 zip 文件。" : String).length = 17 := by decide
  rw [l1, l2, l3, l4] at hlen
  omega

/-- Witness for C4 at a concrete path. -/
theorem c4_missing_badzip_distinct_no_output_witness :
    (generate_manifest "file.bin" .missing).exitCode = 1 ∧
    (generate_manifest "file.bin" .missing).written = none ∧
    (generate_manifest "file.bin" .invalid).exitCode = 1 ∧
    (generate_manifest "file.bin" .invalid).written = none ∧
    (generate_manifest "file.bin" .missing).stderr
      ≠ (generate_manifest "file.bin" .invalid).stderr :=
  c4_missing_badzip_distinct_no_output "file.bin"

end GenerateManifest

namespace SidecarGen

/-- A progress line is not an error report. -/
theorem isErrLine_processing (s : String) :
    isErrLine ("正在处理: " ++ s ++ "...") = false := rfl

/-- A success line is not an error report. -/
theorem isErrLine_success (s : String) : isErrLine ("成功: " ++ s) = false := rfl

/-- A write-failure line is an error report. -/
theorem isErrLine_wfail (s t : String) :
    isErrLine ("错误: 无法写入SHA256文件 \x27" ++ s ++ "\x27: " ++ t) = true := rfl

/-- The recursive scan banner is not an error report. -/
theorem isErrLine_scanR (s : String) :
    isErrLine ("正在递归扫描文件夹: " ++ s) = false := rfl

/-- The non-recursive scan banner is not an error report. -/
theorem isErrLine_scanN (s : String) :
    isErrLine ("正在扫描文件夹: " ++ s) = false := rfl

/-- The file-count banner is not an error report. -/
theorem isErrLine_countMsg (a b : String) :
    isErrLine ("找到 " ++ a ++ " 个文件。将使用 " ++ b ++ " 个线程进行处理...") = false := rfl

/-- The completion banner is not an error report. -/
theorem isErrLine_done : isErrLine "\n所有文件处理完毕！" = false := rfl

/-- The empty-candidate notice is not an error report. -/
theorem isErrLine_noFiles : isErrLine "未找到需要处理的文件。" = false := rfl

/-- On readable content, `calculate_sha256` produces the digest of the full
byte content: chunked reading changes nothing. -/
theorem calculate_sha256_some (c : List Nat) :
    calculate_sha256 (some c) = some (SHA256.sha256hex c) := by
  simp [calculate_sha256, CHUNK_SIZE, SHA256.chunked_stream_eq]

/-- Behaviour of one task on an unreadable file: the read error is
reported, no sidecar is written, nothing is returned. -/
theorem process_file_read_fail (p : String) (f : SFile) (hc : f.content = none) :
    process_file p f =
      ⟨["正在处理: " ++ PyPath.osBasename p ++ "..."],
       ["错误: 无法读取文件 \x27" ++ p ++ "\x27: " ++ f.errText], none, none⟩ := by
  simp [process_file, calculate_sha256, hc]

/-- Behaviour of one task on a readable file with unwritable sidecar: the
write error becomes the returned string, no sidecar is written. -/
theorem process_file_write_fail (p : String) (f : SFile) (c : List Nat)
    (hc : f.content = some c) (hw : f.sidecarWritable = false) :
    process_file p f =
      ⟨["正在处理: " ++ PyPath.osBasename p ++ "..."], [], none,
       some ("错误: 无法写入SHA256文件 \x27" ++ (p ++ ".sha256") ++ "\x27: " ++ f.errText)⟩ := by
  simp [process_file, calculate_sha256_some, hc, hw]

/-- Behaviour of one task on a fully successful file: exactly one sidecar
named by appending `.sha256`, holding digest, two spaces, basename,
newline; a success string is returned. -/
theorem process_file_ok (p : String) (f : SFile) (c : List Nat)
    (hc : f.content = some c) (hw : f.sidecarWritable = true) :
    process_file p f =
      ⟨["正在处理: " ++ PyPath.osBasename p ++ "..."], [],
       some (p ++ ".sha256", SHA256.sha256hex c ++ "  " ++ PyPath.osBasename p ++ "\n"),
       some ("成功: " ++ PyPath.osBasename (p ++ ".sha256"))⟩ := by
  simp [process_file, calculate_sha256_some, hc, hw]

/-- Splitting a candidate list by task success: successes plus failures
exhaust it. -/
theorem length_filter_ok_not (fs : List SFile) :
    (fs.filter (fun f => fileOk f)).length + (fs.filter (fun f => !fileOk f)).length
      = fs.length := by
  induction fs with
  | nil => rfl
  | cons f fs ih =>
    cases h : fileOk f <;>
      simp [List.filter_cons, h, ← ih, Nat.add_assoc, Nat.add_comm, Nat.add_left_comm]

/-- One sidecar is written per fully successful candidate. -/
theorem outs_sidecars_count (t : String) (fs : List SFile) :
    ((fs.map (fun f => process_file (filePath t f) f)).filterMap
        (fun po => po.sidecar)).length
      = (fs.filter (fun f => fileOk f)).length := by
  induction fs with
  | nil => rfl
  | cons f fs ih =>
    rw [List.map_cons, List.filterMap_cons, List.filter_cons]
    cases hc : f.content with
    | none =>
      rw [process_file_read_fail (filePath t f) f hc]
      have hok : fileOk f = false := by simp [fileOk, hc]
      rw [hok]
      simpa using ih
    | some c =>
      cases hw : f.sidecarWritable with
      | false =>
        rw [process_file_write_fail (filePath t f) f c hc hw]
        have hok : fileOk f = false := by simp [fileOk, hc, hw]
        rw [hok]
        simpa using ih
      | true =>
        rw [process_file_ok (filePath t f) f c hc hw]
        have hok : fileOk f = true := by simp [fileOk, hc, hw]
        rw [hok]
        simpa using ih

/-- Exactly one error report is produced per failed candidate: a read
failure contributes its standard-error line, a write failure its returned
error string. -/
theorem outs_errors_count (t : String) (fs : List SFile) :
    ((fs.map (fun f => process_file (filePath t f) f)).map
        (fun po => po.stderrMsgs)).flatten.length
      + (((fs.map (fun f => process_file (filePath t f) f)).map
          procStdout).flatten.filter (fun s => isErrLine s)).length
      = (fs.filter (fun f => !fileOk f)).length := by
  induction fs with
  | nil => rfl
  | cons f fs ih =>
    rw [List.map_cons, List.map_cons, List.map_cons, List.flatten_cons, List.flatten_cons,
      List.filter_cons]
    cases hc : f.content with
    | none =>
      rw [process_file_read_fail (filePath t f) f hc]
      have hok : fileOk f = false := by simp [fileOk, hc]
      rw [hok]
      have hps : procStdout ⟨["正在处理: " ++ PyPath.osBasename (filePath t f) ++ "..."],
          ["错误: 无法读取文件 \x27" ++ filePath t f ++ "\x27: " ++ f.errText], none, none⟩
          = ["正在处理: " ++ PyPath.osBasename (filePath t f) ++ "..."] := rfl
      rw [hps]
      simp only [List.filter_append, List.filter_cons, isErrLine_processing,
        Bool.false_eq_true, if_false, List.filter_nil, List.nil_append, List.length_append,
        List.length_cons, List.length_nil, Bool.not_false, if_true]
      omega
    | some c =>
      cases hw : f.sidecarWritable with
      | false =>
        rw [process_file_write_fail (filePath t f) f c hc hw]
        have hok : fileOk f = false := by simp [fileOk, hc, hw]
        rw [hok]
        have hps : procStdout ⟨["正在处理: " ++ PyPath.osBasename (filePath t f) ++ "..."], [],
            none, some ("错误: 无法写入SHA256文件 \x27" ++ (filePath t f ++ ".sha256")
              ++ "\x27: " ++ f.errText)⟩
            = ["正在处理: " ++ PyPath.osBasename (filePath t f) ++ "...",
               "错误: 无法写入SHA256文件 \x27" ++ (filePath t f ++ ".sha256")
                 ++ "\x27: " ++ f.errText] := rfl
        rw [hps]
        simp only [List.filter_append, List.filter_cons, isErrLine_processing,
          isErrLine_wfail, Bool.false_eq_true, if_false, if_true, List.filter_nil,
          List.nil_append, List.length_append, List.length_cons, List.length_nil,
          Bool.not_false]
        omega
      | true =>
        rw [process_file_ok (filePath t f) f c hc hw]
        have hok : fileOk f = true := by simp [fileOk, hc, hw]
        rw [hok]
        have hps : procStdout ⟨["正在处理: " ++ PyPath.osBasename (filePath t f) ++ "..."], [],
            some (filePath t f ++ ".sha256",
              SHA256.sha256hex c ++ "  " ++ PyPath.osBasename (filePath t f) ++ "\n"),
            some ("成功: " ++ PyPath.osBasename (filePath t f ++ ".sha256"))⟩
            = ["正在处理: " ++ PyPath.osBasename (filePath t f) ++ "...",
               "成功: " ++ PyPath.osBasename (filePath t f ++ ".sha256")] := rfl
        rw [hps]
        simp only [List.filter_append, List.filter_cons, isErrLine_processing,
          isErrLine_success, Bool.false_eq_true, if_false, List.filter_nil,
          List.nil_append, List.length_append, List.length_cons, List.length_nil,
          Bool.not_true]
        omega

/-- Normal form of a run over an empty candidate list: the script reports
that nothing needs processing and finishes normally. -/
theorem sidecar_main_empty (t : String) (files : List SFile) (r : Bool) (wk : Nat)
    (h : files_to_process files r = []) :
    sidecar_main t true files r wk =
      ⟨0, [(if r then "正在递归扫描文件夹: " ++ t else "正在扫描文件夹: " ++ t),
           "未找到需要处理的文件。"], [], [], []⟩ := by
  simp [sidecar_main, h]

/-- Normal form of a run over a nonempty candidate list: the banners, the
per-task output in submission order, the completion banner, the submitted
paths and the written sidecars. -/
theorem sidecar_main_ne (t : String) (files : List SFile) (r : Bool) (wk : Nat)
    (h : (files_to_process files r).isEmpty = false) :
    sidecar_main t true files r wk =
      ⟨0,
       (if r then "正在递归扫描文件夹: " ++ t else "正在扫描文件夹: " ++ t) ::
         ("找到 " ++ toString (files_to_process files r).length ++ " 个文件。将使用 "
            ++ toString wk ++ " 个线程进行处理...") ::
         ((((files_to_process files r).map (fun f => process_file (filePath t f) f)).map
             procStdout).flatten ++ ["\n所有文件处理完毕！"]),
       (((files_to_process files r).map (fun f => process_file (filePath t f) f)).map
         (fun po => po.stderrMsgs)).flatten,
       (files_to_process files r).map (fun f => filePath t f),
       ((files_to_process files r).map (fun f => process_file (filePath t f) f)).filterMap
         (fun po => po.sidecar)⟩ := by
  simp [sidecar_main, h]

/-- A sidecar, when one is written, is named by appending `.sha256` to the
processed file's path. -/
theorem process_file_sidecar_name (p : String) (f : SFile) (sc : String × String)
    (h : (process_file p f).sidecar = some sc) : sc.1 = p ++ ".sha256" := by
  cases hc : f.content with
  | none =>
    rw [process_file_read_fail p f hc] at h
    cases h
  | some c =>
    cases hw : f.sidecarWritable with
    | false =>
      rw [process_file_write_fail p f c hc hw] at h
      cases h
    | true =>
      rw [process_file_ok p f c hc hw] at h
      have h' : (p ++ ".sha256",
          SHA256.sha256hex c ++ "  " ++ PyPath.osBasename p ++ "\n") = sc := by
        simpa using h
      rw [← h']

/-- Claim C6: with the target validated as a directory, every run processes
its whole candidate list: of the `n` candidates the `k` failed ones (file
unreadable or sidecar unwritable) each produce exactly one error report,
the other `n - k` each produce a sidecar, and the run completes normally
with exit status 0. -/
theorem c6_batch_completes_despite_failures (t : String) (files : List SFile)
    (r : Bool) (wk : Nat) :
    (sidecar_main t true files r wk).exitCode = 0 ∧
    (sidecar_main t true files r wk).submitted.length = (files_to_process files r).length ∧
    (sidecar_main t true files r wk).sidecars.length
      = (files_to_process files r).length
        - ((files_to_process files r).filter (fun f => !fileOk f)).length ∧
    (errorReports (sidecar_main t true files r wk)).length
      = ((files_to_process files r).filter (fun f => !fileOk f)).length := by
  cases hemp : (files_to_process files r).isEmpty with
  | true =>
    have hnil : files_to_process files r = [] := List.isEmpty_iff.mp hemp
    rw [sidecar_main_empty t files r wk hnil, hnil]
    refine ⟨rfl, rfl, rfl, ?_⟩
    cases r <;>
      simp [errorReports, List.filter_cons, isErrLine_scanR, isErrLine_scanN,
        isErrLine_noFiles]
  | false =>
    rw [sidecar_main_ne t files r wk hemp]
    refine ⟨rfl, by simp, ?_, ?_⟩
    · show (((files_to_process files r).map (fun f => process_file (filePath t f) f)).filterMap
          (fun po => po.sidecar)).length = _
      rw [outs_sidecars_count]
      have := length_filter_ok_not (files_to_process files r)
      omega
    · have hcnt := outs_errors_count t (files_to_process files r)
      cases r <;>
        simp only [errorReports, List.filter_cons, isErrLine_scanR, isErrLine_scanN,
          isErrLine_countMsg, isErrLine_done, Bool.false_eq_true, if_false, if_true,
          eq_self_iff_true, List.filter_append, List.filter_nil, List.append_nil,
          List.length_append]
      all_goals omega

/-- Claim C7: a successfully hashed file gets exactly one sidecar, at the
original path with `.sha256` appended, whose whole content is the
lowercase hex digest of the full file content, two spaces, the file's
basename, and a newline. -/
theorem c7_sidecar_path_and_content (t : String) (f : SFile) (c : List Nat)
    (hc : f.content = some c) (hw : f.sidecarWritable = true)
    (hn : '/' ∉ f.name.data) :
    (process_file (filePath t f) f).sidecar
      = some (filePath t f ++ ".sha256",
          SHA256.sha256hex c ++ "  " ++ f.name ++ "\n") := by
  rw [process_file_ok (filePath t f) f c hc hw]
  have hb : PyPath.osBasename (PyPath.joinPath (t :: f.dir) f.name) = f.name :=
    PyPath.osBasename_joinPath (t :: f.dir) f.name hn
  simp [filePath, hb]

/-- Witness for C7 on a nested file with content `"hello"`. -/
theorem c7_sidecar_path_and_content_witness :
    (⟨["sub"], "f.bin", some [104, 101, 108, 108, 111], true, ""⟩ : SFile).content
      = some [104, 101, 108, 108, 111] ∧
    (⟨["sub"], "f.bin", some [104, 101, 108, 108, 111], true, ""⟩ : SFile).sidecarWritable
      = true ∧
    '/' ∉ (⟨["sub"], "f.bin", some [104, 101, 108, 108, 111], true, ""⟩ : SFile).name.data ∧
    (process_file
        (filePath "assets" ⟨["sub"], "f.bin", some [104, 101, 108, 108, 111], true, ""⟩)
        ⟨["sub"], "f.bin", some [104, 101, 108, 108, 111], true, ""⟩).sidecar
      = some (filePath "assets" ⟨["sub"], "f.bin", some [104, 101, 108, 108, 111], true, ""⟩
            ++ ".sha256",
          SHA256.sha256hex [104, 101, 108, 108, 111] ++ "  "
            ++ (⟨["sub"], "f.bin", some [104, 101, 108, 108, 111], true, ""⟩ : SFile).name
            ++ "\n") :=
  ⟨rfl, rfl, by decide,
    c7_sidecar_path_and_content "assets" _ _ rfl rfl (by decide)⟩

/-- Claim C8: the candidate list is built in full before any hashing — the
paths handed to the worker pool are exactly the pre-built candidate list —
and in both modes every file named with the `.sha256` suffix is excluded
from it; the only files the run writes are the candidates' sidecars, so
existing `.sha256` files are left untouched. -/
theorem c8_candidates_prebuilt_and_excluded (t : String) (files : List SFile)
    (r : Bool) (wk : Nat) :
    (sidecar_main t true files r wk).submitted
      = (files_to_process files r).map (fun f => filePath t f) ∧
    (∀ f ∈ files_to_process files r, f.name.endsWith ".sha256" = false) ∧
    (∀ sc ∈ (sidecar_main t true files r wk).sidecars,
      ∃ f ∈ files_to_process files r, sc.1 = filePath t f ++ ".sha256") := by
  refine ⟨?_, ?_, ?_⟩
  · cases hemp : (files_to_process files r).isEmpty with
    | true =>
      have hnil := List.isEmpty_iff.mp hemp
      rw [sidecar_main_empty t files r wk hnil, hnil]
      rfl
    | false =>
      rw [sidecar_main_ne t files r wk hemp]
  · intro f hf
    cases r with
    | true =>
      simp only [files_to_process, if_true] at hf
      have := (List.mem_filter.mp hf).2
      simpa using this
    | false =>
      simp only [files_to_process, Bool.false_eq_true, if_false] at hf
      have := (List.mem_filter.mp hf).2
      have h2 := ((Bool.and_eq_true _ _).mp this).2
      simpa using h2
  · intro sc hsc
    cases hemp : (files_to_process files r).isEmpty with
    | true =>
      rw [sidecar_main_empty t files r wk (List.isEmpty_iff.mp hemp)] at hsc
      simp at hsc
    | false =>
      rw [sidecar_main_ne t files r wk hemp] at hsc
      obtain ⟨po, hpo, hposc⟩ := List.mem_filterMap.mp hsc
      obtain ⟨f, hf, rfl⟩ := List.mem_map.mp hpo
      exact ⟨f, hf, process_file_sidecar_name (filePath t f) f sc hposc⟩

end SidecarGen
